import Mathlib

/-!
Verification of the card-search core of the Pokemon price-checker repository.

The development shallowly embeds the two modules the claims are about:

* `src/lib/query-parser.ts` — query classification (`parseQuery`), set-name
  matching (`matchSetName`) and card-number normalization
  (`normalizeCardNumber`);
* `src/lib/card-search.ts` — the hybrid search engine (`smartSearch`,
  `searchByCardNumber`, `searchBySetAndNumber`, `searchByName`), the number
  index (`buildNumberIndex`) and the cached catalog loader (`loadCardData`).

Modelling conventions:

* JavaScript strings are Lean `String`s; the handful of string operations the
  source uses (`trim`, `toLowerCase`, `includes`, `split("/")` and the three
  regular expressions) are re-implemented here on `List Char` by structural
  recursion so that every definition is executable by the kernel.  The
  embedding is at ASCII fidelity: `\s` / `trim` cover space, tab, CR and LF,
  and `toLowerCase` maps `A`–`Z` to `a`–`z`, which is exact for the
  repository's data and queries.
* JavaScript numbers used as prices are modelled as `Rat`; only ordering and
  equality of prices are ever used.
* The Fuse.js fuzzy index is an external capability; it is modelled
  abstractly as a function from a query and a result limit to a score-ordered
  list of cards (`FuzzyIndex`), exactly the shape `searchCards`-style callers
  observe.
* The module-level mutable variables (`cardData`, `fuseIndex`,
  `cardsByNumber`, `loadPromise`) become an explicit `GlobalState` record and
  every operation that can write them returns the successor state.
  `Array.prototype.sort` sorts in place, so the two code paths that sort a
  bucket array obtained from `cardsByNumber.get(...)` without copying
  (`searchByCardNumber` with no set size, `searchBySetAndNumber` with no set
  hint) are modelled as an update of that bucket in the returned state.  The
  modern-JS stable sort is modelled by a stable insertion sort.
-/

/-! ## Character and string primitives (ASCII model of the JS operations) -/

/-- JS `\s` / `trim` whitespace, at ASCII fidelity. -/
def isWs (c : Char) : Bool :=
  c == ' ' || c == '\t' || c == '\n' || c == '\r'

/-- ASCII lower-casing of one character (JS `toLowerCase`). -/
def lowerChar (c : Char) : Char :=
  if c.isUpper then Char.ofNat (c.toNat + 32) else c

/-- JS `String.prototype.toLowerCase`, ASCII model. -/
def strLower (s : String) : String :=
  String.mk (s.data.map lowerChar)

/-- Drop leading and trailing whitespace from a character list. -/
def trimChars (l : List Char) : List Char :=
  ((l.dropWhile isWs).reverse.dropWhile isWs).reverse

/-- JS `String.prototype.trim`, ASCII model. -/
def strTrim (s : String) : String :=
  String.mk (trimChars s.data)

/-- Does `needle` occur at the head of `hay`? -/
def leadEq : List Char → List Char → Bool
  | [], _ => true
  | _ :: _, [] => false
  | a :: as, b :: bs => a == b && leadEq as bs

/-- Does `needle` occur anywhere in `hay`? -/
def subIn (needle : List Char) : List Char → Bool
  | [] => needle.isEmpty
  | c :: rest => leadEq needle (c :: rest) || subIn needle rest

/-- JS `s.includes(sub)`. -/
def strIncludes (s sub : String) : Bool :=
  subIn sub.data s.data

/-! ## Query parser (`src/lib/query-parser.ts`) -/

/-- The three classification variants of `ParsedQuery.type`. -/
inductive QType where
  | cardNumber
  | setNumber
  | name
deriving DecidableEq

/-- The `ParsedQuery` interface of `query-parser.ts`. -/
structure ParsedQuery where
  type : QType
  cardNumber : Option String
  setSize : Option String
  setHint : Option String
  nameQuery : String
  originalQuery : String
deriving DecidableEq

/-- The `SET_ABBREVIATIONS` table of `query-parser.ts`, reproduced verbatim. -/
def SET_ABBREVIATIONS : List (String × List String) :=
  [ ("base", ["base set", "base set (shadowless)", "base set 2"]),
    ("shadowless", ["base set (shadowless)"]),
    ("jungle", ["jungle"]),
    ("fossil", ["fossil"]),
    ("rocket", ["team rocket", "team rocket returns"]),
    ("neo", ["neo destiny", "neo genesis", "neo revelation", "neo discovery"]),
    ("gym", ["gym heroes", "gym challenge"]),
    ("swsh", ["swsh", "sword & shield"]),
    ("sm", ["sm -", "sun & moon"]),
    ("xy", ["xy -", "xy:"]),
    ("bw", ["black & white", "bw -"]),
    ("dp", ["diamond & pearl", "dp -"]),
    ("ex", ["ex -", "ex:"]),
    ("evolving", ["evolving skies"]),
    ("brilliant", ["brilliant stars"]),
    ("astral", ["astral radiance"]),
    ("fusion", ["fusion strike"]),
    ("chilling", ["chilling reign"]),
    ("vivid", ["vivid voltage"]),
    ("champions", ["champion's path"]),
    ("hidden", ["hidden fates"]),
    ("cosmic", ["cosmic eclipse"]),
    ("unified", ["unified minds"]),
    ("unbroken", ["unbroken bonds"]),
    ("lost", ["lost origin"]),
    ("silver", ["silver tempest"]),
    ("crown", ["crown zenith"]),
    ("paldea", ["paldea evolved"]),
    ("obsidian", ["obsidian flames"]),
    ("scarlet", ["scarlet & violet"]),
    ("temporal", ["temporal forces"]),
    ("twilight", ["twilight masquerade"]),
    ("shrouded", ["shrouded fable"]),
    ("stellar", ["stellar crown"]),
    ("surging", ["surging sparks"]) ]

/-- Key lookup in the abbreviation table (JS property access on the object
literal, own keys only). -/
def abbrevLookup (k : String) : List (String × List String) → Option (List String)
  | [] => none
  | (key, vs) :: rest => if key = k then some vs else abbrevLookup k rest

/-- Is `l` a run of one to three ASCII digits (regex `\d{1,3}` anchored on
both sides)? -/
def digits1to3 (l : List Char) : Bool :=
  decide (1 ≤ l.length) && decide (l.length ≤ 3) && l.all Char.isDigit

/-- The anchored regex `^(\d{1,3})\/(\d{1,3})$` of pattern 1: the whole
string is one to three digits, a slash and one to three digits; returns the
two digit groups. -/
def slashParse (l : List Char) : Option (List Char × List Char) :=
  let a := l.takeWhile (fun c => c != '/')
  match l.drop a.length with
  | '/' :: b => if digits1to3 a && digits1to3 b then some (a, b) else none
  | _ => none

/-- Can `l` be the remainder after the lazy prefix of pattern 2, i.e. does it
match `\s+#?(\d{1,3})$`?  Returns the digit group. -/
def tailNumMatch (l : List Char) : Option (List Char) :=
  let w := l.takeWhile isWs
  if w.length = 0 then none
  else
    let r := l.drop w.length
    let r2 := match r with
      | '#' :: rest => rest
      | _ => r
    if digits1to3 r2 then some r2 else none

/-- Is `c` allowed inside the `.+?` prefix of pattern 2?  JS `.` (no `s`
flag) excludes line terminators. -/
def notLineTerm (c : Char) : Bool :=
  c != '\n' && c != '\r'

/-- The regex `^(.+?)\s+#?(\d{1,3})$` of pattern 2: the shortest nonempty
line-terminator-free prefix whose remainder matches `\s+#?\d{1,3}$`.
Returns the prefix (group 1) and the digits (group 2). -/
def findTrailNum : List Char → Option (List Char × List Char)
  | [] => none
  | c :: rest =>
    if notLineTerm c then
      match tailNumMatch rest with
      | some ds => some ([c], ds)
      | none =>
        match findTrailNum rest with
        | some (p, ds) => some (c :: p, ds)
        | none => none
    else none

/-- The unanchored regex `#(\d{1,3})(?:\s|$)` of pattern 3: the digits of the
leftmost `#` that is followed by a digit run of length one to three ending at
whitespace or end of string. -/
def hashScan : List Char → Option (List Char)
  | [] => none
  | c :: rest =>
    if c = '#' then
      let ds := rest.takeWhile Char.isDigit
      if decide (1 ≤ ds.length) && decide (ds.length ≤ 3) &&
          (match rest.drop ds.length with
           | [] => true
           | a :: _ => isWs a) then
        some ds
      else hashScan rest
    else hashScan rest

/-- The replacement `lower.replace(/#\d{1,3}/, "")`: remove the first
occurrence of `#` followed by one or more digits, taking at most three of
them. -/
def stripHashTok : List Char → List Char
  | [] => []
  | c :: rest =>
    if c = '#' then
      let ds := rest.takeWhile Char.isDigit
      if decide (1 ≤ ds.length) then rest.drop (min 3 ds.length)
      else c :: stripHashTok rest
    else c :: stripHashTok rest

/-- `s.replace(/^0+/, "") || "0"`: strip leading zeros, defaulting to "0". -/
def stripZeros (s : String) : String :=
  let r := s.data.dropWhile (fun c => c == '0')
  if r.isEmpty then "0" else String.mk r

/-- The `isLikelySet` heuristic inside pattern 2 of `parseQuery`. -/
def isLikelySet (setHint : String) : Bool :=
  (abbrevLookup setHint SET_ABBREVIATIONS).isSome
  || SET_ABBREVIATIONS.any (fun kv =>
       kv.2.any (fun a => strIncludes setHint a || strIncludes a setHint))
  || strIncludes setHint "set"
  || decide (setHint.data.length ≤ 4)

/-- Pattern 2 of `parseQuery` as one step: the trailing-number form, returning
a parsed query only when the prefix passes the `isLikelySet` heuristic. -/
def trailParse (lower : String) (query : String) : Option ParsedQuery :=
  match findTrailNum lower.data with
  | some (pfx, ds) =>
    if isLikelySet (strTrim (String.mk pfx)) then
      some { type := QType.setNumber, cardNumber := some (stripZeros (String.mk ds)), setSize := none, setHint := some (strTrim (String.mk pfx)), nameQuery := strTrim (String.mk pfx), originalQuery := query }
    else none
  | none => none

/-- `parseQuery` of `query-parser.ts`.  In the source `normalized` abbreviates
`query.trim()` and `lower` abbreviates `normalized.toLowerCase()`; both are
inlined here. -/
def parseQuery (query : String) : ParsedQuery :=
  match slashParse (strLower (strTrim query)).data with
  | some (a, b) =>
    { type := QType.cardNumber, cardNumber := some (stripZeros (String.mk a)), setSize := some (String.mk b), setHint := none, nameQuery := "", originalQuery := query }
  | none =>
    match trailParse (strLower (strTrim query)) query with
    | some r => r
    | none =>
      match hashScan (strLower (strTrim query)).data with
      | some ds =>
        { type := QType.setNumber, cardNumber := some (stripZeros (String.mk ds)), setSize := none,
          setHint := if strTrim (String.mk (stripHashTok (strLower (strTrim query)).data)) = "" then none else some (strTrim (String.mk (stripHashTok (strLower (strTrim query)).data))),
          nameQuery := strTrim (String.mk (stripHashTok (strLower (strTrim query)).data)),
          originalQuery := query }
      | none =>
        { type := QType.name, cardNumber := none, setSize := none, setHint := none, nameQuery := strTrim query, originalQuery := query }

/-- `matchSetName` of `query-parser.ts`.  In the source `hintLower` and
`setLower` abbreviate the two lower-casings; both are inlined here. -/
def matchSetName (hint actualSetName : String) : Bool :=
  strIncludes (strLower actualSetName) (strLower hint)
  || (match abbrevLookup (strLower hint) SET_ABBREVIATIONS with
      | some possibleSets => possibleSets.any (fun s => strIncludes (strLower actualSetName) s)
      | none => false)
  || SET_ABBREVIATIONS.any (fun kv =>
       kv.2.any (fun a => strIncludes a (strLower hint) && strIncludes (strLower actualSetName) a))

/-- `normalizeCardNumber` of `query-parser.ts`: `num.match(/^0*(\d+)/)`
returns the leading digit run with its leading zeros stripped (backtracking
keeps one zero when the run is all zeros); when the string does not start
with a digit the regex fails and `num` is returned unchanged. -/
def normalizeCardNumber (num : String) : String :=
  if (num.data.takeWhile Char.isDigit).isEmpty then num
  else if ((num.data.takeWhile Char.isDigit).dropWhile (fun c => c == '0')).isEmpty then "0"
  else String.mk ((num.data.takeWhile Char.isDigit).dropWhile (fun c => c == '0'))

/-- Spec-side normalization, written from the words of claim C5: strip all
leading zeros from the leading digit run, return the remaining digits,
return "0" when nothing remains, and ignore all non-digit content. -/
def specNormalizeCardNumber (num : String) : String :=
  if ((num.data.takeWhile Char.isDigit).dropWhile (fun c => c == '0')).isEmpty then "0"
  else String.mk ((num.data.takeWhile Char.isDigit).dropWhile (fun c => c == '0'))

/-! ## Card search (`src/lib/card-search.ts`) -/

/-- A price tuple of one card variant. -/
structure PriceEntry where
  market : Rat
  low : Option Rat
  high : Option Rat
deriving DecidableEq

/-- The `CachedCard` interface of `card-search.ts`. -/
structure CachedCard where
  id : String
  name : String
  rarity : String
  number : String
  setId : String
  setName : String
  series : String
  releaseDate : String
  imageSmall : String
  imageLarge : String
  tcgplayerUrl : String
  priceUpdatedAt : String
  prices : List (String × PriceEntry)
  highestPrice : Rat
deriving DecidableEq

/-- The `CardData` interface of `card-search.ts`. -/
structure CardData where
  generatedAt : String
  minPrice : Rat
  totalCards : Nat
  cards : List CachedCard
deriving DecidableEq

/-- The Fuse.js index, modelled abstractly: a query and a result limit yield
the score-ordered list of matching cards (`search(q, {limit}).map(r => r.item)`). -/
def FuzzyIndex : Type := String → Nat → List CachedCard

/-- The card-number index: normalized number to bucket.  A JS `Map` lookup of
an absent key yields the empty bucket. -/
def NumberIndex : Type := String → List CachedCard

/-- The module-level mutable state of `card-search.ts`: `cardData`,
`fuseIndex`, `cardsByNumber` and (for the loader) whether `loadPromise` holds
a promise object.  In the source a completed load leaves the settled promise
in `loadPromise`; it is never reset to `null`. -/
structure GlobalState where
  cardData : Option CardData
  fuseIndex : Option FuzzyIndex
  cardsByNumber : Option NumberIndex
  loadPromise : Bool

/-- `buildNumberIndex` of `card-search.ts`: group the catalog by normalized
card number, preserving catalog order inside each bucket.  Extensionally, the
bucket of key `k` is the catalog filtered to the cards whose normalized
number is `k`. -/
def buildNumberIndex (cards : List CachedCard) : NumberIndex :=
  fun k => cards.filter (fun c => normalizeCardNumber c.number == k)

/-- Stable insertion into a list ordered by `r`, where `r a b` means `a` may
come no later than `b`; on ties the inserted element (originally earlier)
stays first. -/
def insertBy (r : α → α → Bool) (a : α) : List α → List α
  | [] => [a]
  | b :: l => if r a b then a :: b :: l else b :: insertBy r a l

/-- Stable sort by `r`; models the (stable, ES2019) `Array.prototype.sort`
with a consistent comparator. -/
def sortBy (r : α → α → Bool) : List α → List α
  | [] => []
  | a :: l => insertBy r a (sortBy r l)

/-- The comparator `(a, b) => b.highestPrice - a.highestPrice`: descending by
highest price. -/
def priceDesc (a b : CachedCard) : Bool :=
  decide (b.highestPrice ≤ a.highestPrice)

/-- `parts[1]` of `card.number.split("/")`: the text between the first and
second slash, or `none` when the number contains no slash. -/
def setSizePart (number : String) : Option String :=
  let l := number.data
  let a := l.takeWhile (fun c => c != '/')
  match l.drop a.length with
  | '/' :: rest => some (String.mk (rest.takeWhile (fun c => c != '/')))
  | _ => none

/-- `searchByCardNumber` of `card-search.ts`.  When no set size is given the
source sorts the bucket array obtained from the `Map` in place, so the
returned state carries the re-ordered bucket; with a set size the source
sorts a fresh `filter` result and the state is untouched. -/
def searchByCardNumber (cardNum : String) (setSize : Option String)
    (st : GlobalState) : List CachedCard × GlobalState :=
  match st.cardsByNumber with
  | none => ([], st)
  | some idx =>
    match setSize with
    | some sz =>
      (sortBy priceDesc ((idx (stripZeros cardNum)).filter (fun c => setSizePart c.number == some sz)), st)
    | none =>
      (sortBy priceDesc (idx (stripZeros cardNum)),
       { st with cardsByNumber := some (fun k => if k = stripZeros cardNum then sortBy priceDesc (idx (stripZeros cardNum)) else idx k) })

/-- `searchBySetAndNumber` of `card-search.ts`.  With no set hint the source
sorts the bucket array in place (state update); with a hint it sorts a fresh
`filter` result. -/
def searchBySetAndNumber (setHint : Option String) (cardNum : String)
    (st : GlobalState) : List CachedCard × GlobalState :=
  match st.cardsByNumber with
  | none => ([], st)
  | some idx =>
    match setHint with
    | none =>
      (sortBy priceDesc (idx (stripZeros cardNum)),
       { st with cardsByNumber := some (fun k => if k = stripZeros cardNum then sortBy priceDesc (idx (stripZeros cardNum)) else idx k) })
    | some hint =>
      (sortBy priceDesc ((idx (stripZeros cardNum)).filter (fun c => matchSetName hint c.setName)), st)

/-- The exact-substring matches of `searchByName` step 1: all cards whose
lower-cased name contains `lower`. -/
def exactNameMatches (cd : CardData) (lower : String) : List CachedCard :=
  cd.cards.filter (fun c => strIncludes (strLower c.name) lower)

/-- `a.name.toLowerCase() === lower`, the exact-name flag of the
`searchByName` comparator. -/
def isExactNm (lower : String) (c : CachedCard) : Bool :=
  decide (strLower c.name = lower)

/-- The `searchByName` comparator: exact-name matches first, then descending
by highest price. -/
def nameCmp (lower : String) (a b : CachedCard) : Bool :=
  if isExactNm lower a = isExactNm lower b then decide (b.highestPrice ≤ a.highestPrice)
  else isExactNm lower a

/-- The ordering claimed for the exact-match block: an exact-name card never
follows a non-exact one, and inside a flag group prices are descending. -/
def exactFirstRel (lower : String) (a b : CachedCard) : Prop :=
  (isExactNm lower b = true → isExactNm lower a = true) ∧
  (isExactNm lower a = isExactNm lower b → b.highestPrice ≤ a.highestPrice)

instance (lower : String) (a b : CachedCard) : Decidable (exactFirstRel lower a b) := by
  unfold exactFirstRel
  infer_instance

/-- Membership of an id in the `exactIds` set. -/
def hasId (ids : List String) (i : String) : Bool :=
  match ids with
  | [] => false
  | x :: rest => if x = i then true else hasId rest i

/-- The sorted exact-match block of `searchByName`: exact matches ordered by
the exact-name-first, then price-descending comparator. -/
def sortedExact (cd : CardData) (lower : String) : List CachedCard :=
  sortBy (nameCmp lower) (exactNameMatches cd lower)

/-- `searchByName` of `card-search.ts`.  It only reads `cardData` and
`fuseIndex` and never writes state (its sorts act on fresh `filter`
results). -/
def searchByName (nameQuery : String) (st : GlobalState) : List CachedCard :=
  match st.cardData, st.fuseIndex with
  | some cd, some fi =>
    if strTrim (strLower nameQuery) = "" then []
    else if 0 < (exactNameMatches cd (strTrim (strLower nameQuery))).length then
      if 10 ≤ (sortedExact cd (strTrim (strLower nameQuery))).length then
        sortedExact cd (strTrim (strLower nameQuery))
      else
        sortedExact cd (strTrim (strLower nameQuery)) ++
          (fi nameQuery 100).filter (fun c =>
            !(hasId ((sortedExact cd (strTrim (strLower nameQuery))).map (fun x => x.id)) c.id))
    else fi nameQuery 100
  | _, _ => []

/-- The `switch (parsed.type)` dispatch step of `smartSearch`. -/
def dispatchSearch (parsed : ParsedQuery) (st : GlobalState) :
    List CachedCard × GlobalState :=
  match parsed.type with
  | QType.cardNumber => searchByCardNumber (parsed.cardNumber.getD "") parsed.setSize st
  | QType.setNumber => searchBySetAndNumber parsed.setHint (parsed.cardNumber.getD "") st
  | QType.name => (searchByName parsed.nameQuery st, st)

/-- `smartSearch` of `card-search.ts`. -/
def smartSearch (query : String) (limit : Nat) (st : GlobalState) :
    List CachedCard × GlobalState :=
  match st.cardData, st.fuseIndex, st.cardsByNumber with
  | some _, some _, some _ =>
    if strTrim query = "" then ([], st)
    else if (dispatchSearch (parseQuery query) st).1 = [] ∧ (parseQuery query).type ≠ QType.name then
      ((searchByName (parseQuery query).originalQuery (dispatchSearch (parseQuery query) st).2).take limit,
       (dispatchSearch (parseQuery query) st).2)
    else ((dispatchSearch (parseQuery query) st).1.take limit, (dispatchSearch (parseQuery query) st).2)
  | _, _, _ => ([], st)

/-- The bucket of key `k` in the state's number index (empty when the index
is not loaded). -/
def idxBucket (st : GlobalState) (k : String) : List CachedCard :=
  match st.cardsByNumber with
  | some idx => idx k
  | none => []

/-! ## Catalog loader (`loadCardData` of `card-search.ts`) -/

/-- What the environment answers if a fetch of `/cards-data.json` happens:
a non-ok response, a parsed JSON body (possibly `null`), or a thrown
fault. -/
inductive FetchOutcome where
  | notOk
  | okJson (data : Option CardData)
  | fetchErr

/-- `loadCardData` of `card-search.ts`, sequential semantics.  `fuseBuild`
stands for the external `new Fuse(cards, fuseOptions)` constructor; the
returned `Bool` records whether an underlying fetch was performed.  A
completed call always leaves `loadPromise` set: the source never clears it,
and a later call that sees `cardData` null but a settled `loadPromise`
merely awaits it and returns. -/
def loadCardData (fuseBuild : List CachedCard → FuzzyIndex) (outcome : FetchOutcome)
    (st : GlobalState) : GlobalState × Bool :=
  if st.cardData.isSome then (st, false)
  else if st.loadPromise then (st, false)
  else
    match outcome with
    | FetchOutcome.notOk => ({ st with loadPromise := true }, true)
    | FetchOutcome.okJson none => ({ st with cardData := none, loadPromise := true }, true)
    | FetchOutcome.okJson (some d) =>
      ({ cardData := some d, fuseIndex := some (fuseBuild d.cards),
         cardsByNumber := some (buildNumberIndex d.cards), loadPromise := true }, true)
    | FetchOutcome.fetchErr =>
      ({ cardData := none, fuseIndex := none, cardsByNumber := none, loadPromise := true }, true)

/-! ## Concrete fixtures used by witnesses and counterexamples -/

/-- A fuzzy index returning no matches at all. -/
def emptyFuse : FuzzyIndex := fun _ _ => []

/-- An empty catalog. -/
def cdEmpty : CardData := { generatedAt := "g", minPrice := 0, totalCards := 0, cards := [] }

/-- A loaded state over the empty catalog. -/
def stEmpty : GlobalState :=
  { cardData := some cdEmpty, fuseIndex := some emptyFuse,
    cardsByNumber := some (buildNumberIndex cdEmpty.cards), loadPromise := true }

/-- A completely unloaded state. -/
def stUnloaded : GlobalState :=
  { cardData := none, fuseIndex := none, cardsByNumber := none, loadPromise := false }

/-- A card sharing number 4 with `cardB` but cheaper and earlier in the
catalog. -/
def cardA : CachedCard :=
  { id := "a", name := "A", rarity := "", number := "4/102", setId := "", setName := "S",
    series := "", releaseDate := "", imageSmall := "", imageLarge := "", tcgplayerUrl := "",
    priceUpdatedAt := "", prices := [], highestPrice := 1 }

/-- A card sharing number 4 with `cardA` but pricier and later in the
catalog. -/
def cardB : CachedCard :=
  { id := "b", name := "B", rarity := "", number := "4/102", setId := "", setName := "S",
    series := "", releaseDate := "", imageSmall := "", imageLarge := "", tcgplayerUrl := "",
    priceUpdatedAt := "", prices := [], highestPrice := 2 }

/-- Catalog holding `cardA` before `cardB`. -/
def cdAB : CardData := { generatedAt := "g", minPrice := 0, totalCards := 2, cards := [cardA, cardB] }

/-- A loaded state over `cdAB`; its number-index bucket "4" is `[cardA, cardB]`
in catalog order. -/
def stAB : GlobalState :=
  { cardData := some cdAB, fuseIndex := some emptyFuse,
    cardsByNumber := some (buildNumberIndex cdAB.cards), loadPromise := true }

/-- The "Pikachu" card of the spec's exact-match sorting example (price 5). -/
def pikachu : CachedCard :=
  { id := "p1", name := "Pikachu", rarity := "", number := "25/102", setId := "", setName := "S",
    series := "", releaseDate := "", imageSmall := "", imageLarge := "", tcgplayerUrl := "",
    priceUpdatedAt := "", prices := [], highestPrice := 5 }

/-- The "Pikachu VMAX" card of the spec's exact-match sorting example
(price 50). -/
def pikachuVmax : CachedCard :=
  { id := "p2", name := "Pikachu VMAX", rarity := "", number := "44/185", setId := "", setName := "S",
    series := "", releaseDate := "", imageSmall := "", imageLarge := "", tcgplayerUrl := "",
    priceUpdatedAt := "", prices := [], highestPrice := 50 }

/-- Catalog holding the two Pikachu cards. -/
def cdPika : CardData :=
  { generatedAt := "g", minPrice := 0, totalCards := 2, cards := [pikachu, pikachuVmax] }

/-- A loaded state over `cdPika`. -/
def stPika : GlobalState :=
  { cardData := some cdPika, fuseIndex := some emptyFuse,
    cardsByNumber := some (buildNumberIndex cdPika.cards), loadPromise := true }

/-- A card named "Mew" with identifier `n`; ten of these populate a catalog
whose exact-match count reaches the sufficiency threshold. -/
def mewCard (n : Nat) : CachedCard :=
  { id := toString n, name := "Mew", rarity := "", number := "1/1", setId := "", setName := "S",
    series := "", releaseDate := "", imageSmall := "", imageLarge := "", tcgplayerUrl := "",
    priceUpdatedAt := "", prices := [], highestPrice := 1 }

/-- A catalog of ten identically-named cards. -/
def cdMew : CardData :=
  { generatedAt := "g", minPrice := 0, totalCards := 10, cards := (List.range 10).map mewCard }

/-! ## Generic lemmas about the stable sort -/

theorem insertBy_perm (r : α → α → Bool) (a : α) (l : List α) :
    List.Perm (insertBy r a l) (a :: l) := by
  induction l with
  | nil => exact List.Perm.refl _
  | cons b l ih =>
    rw [insertBy]
    by_cases h : r a b = true
    · rw [if_pos h]
    · rw [if_neg h]
      exact (ih.cons b).trans (List.Perm.swap a b l)

theorem sortBy_perm (r : α → α → Bool) (l : List α) :
    List.Perm (sortBy r l) l := by
  induction l with
  | nil => exact List.Perm.refl _
  | cons a l ih => exact (insertBy_perm r a (sortBy r l)).trans (ih.cons a)

theorem sortBy_length (r : α → α → Bool) (l : List α) :
    (sortBy r l).length = l.length :=
  (sortBy_perm r l).length_eq

theorem mem_insertBy {r : α → α → Bool} {a x : α} {l : List α} :
    x ∈ insertBy r a l ↔ x = a ∨ x ∈ l := by
  rw [(insertBy_perm r a l).mem_iff]
  exact List.mem_cons

theorem pairwise_insertBy {r : α → α → Bool}
    (htot : ∀ a b, r a b = true ∨ r b a = true)
    (htr : ∀ a b c, r a b = true → r b c = true → r a c = true)
    (a : α) {l : List α} (h : l.Pairwise (fun x y => r x y = true)) :
    (insertBy r a l).Pairwise (fun x y => r x y = true) := by
  induction l with
  | nil => simp [insertBy]
  | cons b l ih =>
    rw [List.pairwise_cons] at h
    obtain ⟨hb, hl⟩ := h
    rw [insertBy]
    by_cases hr : r a b = true
    · rw [if_pos hr]
      refine List.Pairwise.cons ?_ (List.Pairwise.cons hb hl)
      intro y hy
      rcases List.mem_cons.mp hy with rfl | hyl
      · exact hr
      · exact htr a b y hr (hb y hyl)
    · rw [if_neg hr]
      have hba : r b a = true := (htot a b).resolve_left hr
      refine List.Pairwise.cons ?_ (ih hl)
      intro y hy
      rcases mem_insertBy.mp hy with rfl | hyl
      · exact hba
      · exact hb y hyl

theorem pairwise_sortBy {r : α → α → Bool}
    (htot : ∀ a b, r a b = true ∨ r b a = true)
    (htr : ∀ a b c, r a b = true → r b c = true → r a c = true)
    (l : List α) :
    (sortBy r l).Pairwise (fun x y => r x y = true) := by
  induction l with
  | nil => simp [sortBy]
  | cons a l ih => exact pairwise_insertBy htot htr a ih

/-! ## Comparator properties -/

theorem priceDesc_total (a b : CachedCard) :
    priceDesc a b = true ∨ priceDesc b a = true := by
  unfold priceDesc
  rcases le_total a.highestPrice b.highestPrice with h | h
  · right; exact decide_eq_true h
  · left; exact decide_eq_true h

theorem priceDesc_trans (a b c : CachedCard) :
    priceDesc a b = true → priceDesc b c = true → priceDesc a c = true := by
  unfold priceDesc
  intro h1 h2
  exact decide_eq_true (le_trans (of_decide_eq_true h2) (of_decide_eq_true h1))

theorem nameCmp_total (lower : String) (a b : CachedCard) :
    nameCmp lower a b = true ∨ nameCmp lower b a = true := by
  unfold nameCmp
  by_cases h : isExactNm lower a = isExactNm lower b
  · rw [if_pos h, if_pos h.symm]
    rcases le_total a.highestPrice b.highestPrice with hle | hle
    · right; exact decide_eq_true hle
    · left; exact decide_eq_true hle
  · rw [if_neg h, if_neg (Ne.symm h)]
    cases ha : isExactNm lower a
    · right
      cases hb : isExactNm lower b
      · exact absurd (ha.trans hb.symm) h
      · rfl
    · left; rfl

theorem nameCmp_trans (lower : String) (a b c : CachedCard) :
    nameCmp lower a b = true → nameCmp lower b c = true → nameCmp lower a c = true := by
  unfold nameCmp
  intro h1 h2
  by_cases hab : isExactNm lower a = isExactNm lower b
  · by_cases hbc : isExactNm lower b = isExactNm lower c
    · rw [if_pos hab] at h1
      rw [if_pos hbc] at h2
      rw [if_pos (hab.trans hbc)]
      exact decide_eq_true (le_trans (of_decide_eq_true h2) (of_decide_eq_true h1))
    · rw [if_neg hbc] at h2
      rw [if_neg (fun hac => hbc (hab.symm.trans hac))]
      exact hab.symm ▸ h2
  · rw [if_neg hab] at h1
    by_cases hbc : isExactNm lower b = isExactNm lower c
    · rw [if_neg (fun hac => hab (hac.trans hbc.symm))]
      exact h1
    · -- flags a ≠ b and b ≠ c over Bool force a = c, and h1 : a-flag = true,
      -- h2 : b-flag = true contradict a ≠ b
      rw [if_neg hbc] at h2
      exact absurd (h1.trans h2.symm) hab

theorem nameCmp_imp_rel (lower : String) (a b : CachedCard)
    (h : nameCmp lower a b = true) : exactFirstRel lower a b := by
  unfold nameCmp at h
  unfold exactFirstRel
  by_cases hf : isExactNm lower a = isExactNm lower b
  · rw [if_pos hf] at h
    exact ⟨fun hb => hf.trans hb, fun _ => of_decide_eq_true h⟩
  · rw [if_neg hf] at h
    constructor
    · intro _; exact h
    · intro heq; exact absurd heq hf

/-! ## Small facts about the string primitives -/

theorem subIn_nil (l : List Char) : subIn [] l = true := by
  cases l <;> rfl

theorem hasId_iff {ids : List String} {i : String} :
    hasId ids i = true ↔ i ∈ ids := by
  induction ids with
  | nil => simp [hasId]
  | cons x rest ih =>
    by_cases hx : x = i
    · subst hx
      simp [hasId]
    · rw [hasId, if_neg hx, ih, List.mem_cons]
      constructor
      · exact Or.inr
      · rintro (rfl | h)
        · exact absurd rfl hx
        · exact h

theorem hasId_congr_perm {ids1 ids2 : List String} (h : List.Perm ids1 ids2)
    (i : String) : hasId ids1 i = hasId ids2 i := by
  rw [Bool.eq_iff_iff, hasId_iff, hasId_iff]
  exact h.mem_iff

/-! ## Facts about `parseQuery` -/

/-- A query whose trim is empty matches none of the structural patterns and
classifies as a plain name query. -/
theorem parseQuery_of_trim_empty (q : String) (h : strTrim q = "") :
    parseQuery q = { type := QType.name, cardNumber := none, setSize := none, setHint := none, nameQuery := strTrim q, originalQuery := q } := by
  unfold parseQuery
  rw [h]
  rfl

/-- A parsed query produced by the trailing-number pattern carries the raw
query as `originalQuery`. -/
theorem trailParse_original {lower q : String} {r : ParsedQuery}
    (h : trailParse lower q = some r) : r.originalQuery = q := by
  unfold trailParse at h
  split at h
  · split at h
    · cases h
      rfl
    · cases h
  · cases h

/-- Every classification result carries the raw query as `originalQuery`. -/
theorem parseQuery_original (q : String) : (parseQuery q).originalQuery = q := by
  unfold parseQuery
  split
  · rfl
  · split
    · next r htp => exact trailParse_original htp
    · split
      · rfl
      · rfl

/-- Whenever the classification is not `name`, the trimmed query is
nonempty. -/
theorem trim_ne_of_not_name (q : String) (h : (parseQuery q).type ≠ QType.name) :
    strTrim q ≠ "" := by
  intro he
  exact h (by rw [parseQuery_of_trim_empty q he])

/-! ## State-frame lemmas for the search operations -/

theorem searchByCardNumber_state (n : String) (sz : Option String) (st : GlobalState) :
    ((searchByCardNumber n sz st).2.cardData = st.cardData) ∧
    ((searchByCardNumber n sz st).2.fuseIndex = st.fuseIndex) ∧
    ((searchByCardNumber n sz st).2.loadPromise = st.loadPromise) ∧
    ((searchByCardNumber n sz st).2.cardsByNumber.isSome = st.cardsByNumber.isSome) ∧
    (∀ k, List.Perm (idxBucket (searchByCardNumber n sz st).2 k) (idxBucket st k)) := by
  unfold searchByCardNumber
  split
  · exact ⟨rfl, rfl, rfl, rfl, fun k => List.Perm.refl _⟩
  · next idx heq =>
    split
    · exact ⟨rfl, rfl, rfl, rfl, fun k => List.Perm.refl _⟩
    · refine ⟨rfl, rfl, rfl, by rw [heq]; rfl, ?_⟩
      intro k
      unfold idxBucket
      rw [heq]
      by_cases hk : k = stripZeros n
      · subst hk
        simp only [if_pos rfl]
        exact sortBy_perm priceDesc _
      · simp only [if_neg hk]
        exact List.Perm.refl _

theorem searchBySetAndNumber_state (h : Option String) (n : String) (st : GlobalState) :
    ((searchBySetAndNumber h n st).2.cardData = st.cardData) ∧
    ((searchBySetAndNumber h n st).2.fuseIndex = st.fuseIndex) ∧
    ((searchBySetAndNumber h n st).2.loadPromise = st.loadPromise) ∧
    ((searchBySetAndNumber h n st).2.cardsByNumber.isSome = st.cardsByNumber.isSome) ∧
    (∀ k, List.Perm (idxBucket (searchBySetAndNumber h n st).2 k) (idxBucket st k)) := by
  unfold searchBySetAndNumber
  split
  · exact ⟨rfl, rfl, rfl, rfl, fun k => List.Perm.refl _⟩
  · next idx heq =>
    split
    · refine ⟨rfl, rfl, rfl, by rw [heq]; rfl, ?_⟩
      intro k
      unfold idxBucket
      rw [heq]
      by_cases hk : k = stripZeros n
      · subst hk
        simp only [if_pos rfl]
        exact sortBy_perm priceDesc _
      · simp only [if_neg hk]
        exact List.Perm.refl _
    · exact ⟨rfl, rfl, rfl, rfl, fun k => List.Perm.refl _⟩

theorem dispatchSearch_state (p : ParsedQuery) (st : GlobalState) :
    ((dispatchSearch p st).2.cardData = st.cardData) ∧
    ((dispatchSearch p st).2.fuseIndex = st.fuseIndex) ∧
    ((dispatchSearch p st).2.loadPromise = st.loadPromise) ∧
    ((dispatchSearch p st).2.cardsByNumber.isSome = st.cardsByNumber.isSome) ∧
    (∀ k, List.Perm (idxBucket (dispatchSearch p st).2 k) (idxBucket st k)) := by
  unfold dispatchSearch
  split
  · exact searchByCardNumber_state _ _ st
  · exact searchBySetAndNumber_state _ _ st
  · exact ⟨rfl, rfl, rfl, rfl, fun k => List.Perm.refl _⟩

/-- `searchByName` only depends on the catalog and the fuzzy index. -/
theorem searchByName_congr (n : String) (st1 st2 : GlobalState)
    (h1 : st1.cardData = st2.cardData) (h2 : st1.fuseIndex = st2.fuseIndex) :
    searchByName n st1 = searchByName n st2 := by
  unfold searchByName
  rw [h1, h2]

/-! ## More helper lemmas -/

theorem sortedExact_length (cd : CardData) (lower : String) :
    (sortedExact cd lower).length = (exactNameMatches cd lower).length :=
  sortBy_length _ _

/-- `dispatchSearch` on a name-classified query is the name search. -/
theorem dispatchSearch_name {p : ParsedQuery} (st : GlobalState)
    (h : p.type = QType.name) :
    dispatchSearch p st = (searchByName p.nameQuery st, st) := by
  unfold dispatchSearch
  rw [h]

/-- The name search of the empty query is empty on any loaded state. -/
theorem searchByName_empty (cd : CardData) (fi : FuzzyIndex) (ni : Option NumberIndex)
    (lp : Bool) : searchByName "" (GlobalState.mk (some cd) (some fi) ni lp) = [] := rfl

/-! ## Claim theorems -/

/-- Claim C1, counterexample: `smartSearch "#4"` on a loaded state whose
number-index bucket "4" holds `[cardA, cardB]` in catalog order re-orders
that very bucket to `[cardB, cardA]` (the source sorts the bucket array
obtained from the `Map` in place), so the search is not a pure read of the
Number Index. -/
theorem smartSearch_mutates_bucket :
    idxBucket stAB "4" = [cardA, cardB] ∧
    idxBucket (smartSearch "#4" 50 stAB).2 "4" = [cardB, cardA] ∧
    idxBucket (smartSearch "#4" 50 stAB).2 "4" ≠ idxBucket stAB "4" := by
  refine ⟨by decide, by decide, by decide⟩

/-- Claim C1, amended: every `smartSearch` call leaves the catalog, the
Fuzzy Index, the load flag and the presence of the Number Index unchanged,
and every bucket of the Number Index afterwards is a permutation of the
bucket before the call (the only mutation is the in-place price-descending
re-sort of the consulted bucket on the two unfiltered number paths);
`searchByName` returns no state at all in this embedding and is pure by
construction. -/
theorem smartSearch_state_frame (q : String) (l : Nat) (st : GlobalState) :
    ((smartSearch q l st).2.cardData = st.cardData) ∧
    ((smartSearch q l st).2.fuseIndex = st.fuseIndex) ∧
    ((smartSearch q l st).2.loadPromise = st.loadPromise) ∧
    ((smartSearch q l st).2.cardsByNumber.isSome = st.cardsByNumber.isSome) ∧
    (∀ k, List.Perm (idxBucket (smartSearch q l st).2 k) (idxBucket st k)) := by
  unfold smartSearch
  split
  · split
    · exact ⟨rfl, rfl, rfl, rfl, fun k => List.Perm.refl _⟩
    · split
      · exact dispatchSearch_state _ st
      · exact dispatchSearch_state _ st
  · exact ⟨rfl, rfl, rfl, rfl, fun k => List.Perm.refl _⟩

/-- Claim C5, counterexample: on an input with no leading digit run the code
returns the input unchanged, while the claimed normalization ("non-digit
content is ignored, empty result becomes 0") would return "0". -/
theorem normalizeCardNumber_nondigit_cx :
    normalizeCardNumber "abc" = "abc" ∧
    specNormalizeCardNumber "abc" = "0" ∧
    normalizeCardNumber "abc" ≠ specNormalizeCardNumber "abc" := by
  refine ⟨by decide, by decide, by decide⟩

/-- Claim C5, amended: on every input that starts with a digit,
`normalizeCardNumber` strips the leading zeros of the leading digit run,
returns "0" when the run is all zeros, and ignores everything after the run
(it agrees with the spec-side normalization); on an input that does not
start with a digit the regex `^0*(\d+)` fails and the input is returned
unchanged. -/
theorem normalizeCardNumber_amended (s : String) :
    ((s.data.headD ' ').isDigit = true → normalizeCardNumber s = specNormalizeCardNumber s) ∧
    ((s.data.headD ' ').isDigit = false → normalizeCardNumber s = s) := by
  constructor
  · intro h
    unfold normalizeCardNumber specNormalizeCardNumber
    rcases hd : s.data with _ | ⟨c, cs⟩
    · rw [hd] at h
      exact absurd h (by decide)
    · rw [hd] at h
      simp only [List.headD_cons] at h
      rw [List.takeWhile_cons, if_pos h]
      simp
  · intro h
    unfold normalizeCardNumber
    rcases hd : s.data with _ | ⟨c, cs⟩
    · rfl
    · rw [hd] at h
      simp only [List.headD_cons] at h
      rw [List.takeWhile_cons]
      simp [h]

/-- Claim C5, witness: the amended theorem applied at "025" (digit-leading,
so the spec normalization is followed) and at "abc" (not digit-leading, so
the input passes through), together with the three examples of the claim. -/
theorem normalizeCardNumber_amended_witness :
    (("025".data.headD ' ').isDigit = true ∧
      normalizeCardNumber "025" = specNormalizeCardNumber "025") ∧
    (("abc".data.headD ' ').isDigit = false ∧ normalizeCardNumber "abc" = "abc") ∧
    normalizeCardNumber "025" = "25" ∧ normalizeCardNumber "000" = "0" ∧
    normalizeCardNumber "4" = "4" :=
  ⟨⟨by decide, (normalizeCardNumber_amended "025").1 (by decide)⟩,
   ⟨by decide, (normalizeCardNumber_amended "abc").2 (by decide)⟩,
   by decide, by decide, by decide⟩

/-- Claim C7: classification is total - every query yields exactly one of
the three variants, and a query matching none of the three structural rules
(slash form, accepted trailing-number form, hash form, all computed on the
trimmed lower-cased text) yields the `name` variant carrying the trimmed
original text. -/
theorem parseQuery_total (q : String) :
    ((parseQuery q).type = QType.cardNumber ∨ (parseQuery q).type = QType.setNumber ∨
      (parseQuery q).type = QType.name) ∧
    (slashParse (strLower (strTrim q)).data = none →
      trailParse (strLower (strTrim q)) q = none →
      hashScan (strLower (strTrim q)).data = none →
      parseQuery q = { type := QType.name, cardNumber := none, setSize := none, setHint := none, nameQuery := strTrim q, originalQuery := q }) := by
  constructor
  · cases h : (parseQuery q).type
    · exact Or.inl rfl
    · exact Or.inr (Or.inl rfl)
    · exact Or.inr (Or.inr rfl)
  · intro h1 h2 h3
    unfold parseQuery
    rw [h1, h2, h3]

/-- Claim C7, witness: the theorem applied at "hello!!", a query matching
none of the structural rules. -/
theorem parseQuery_total_witness :
    ((parseQuery "hello!!").type = QType.cardNumber ∨
      (parseQuery "hello!!").type = QType.setNumber ∨
      (parseQuery "hello!!").type = QType.name) ∧
    parseQuery "hello!!" = { type := QType.name, cardNumber := none, setSize := none, setHint := none, nameQuery := strTrim "hello!!", originalQuery := "hello!!" } :=
  ⟨(parseQuery_total "hello!!").1,
   (parseQuery_total "hello!!").2 (by decide) (by decide) (by decide)⟩

/-- Claim C8: with any of catalog, fuzzy index or number index missing,
`smartSearch` returns the empty list (and the unchanged state) for every
query and limit; on a loaded state an empty or whitespace-only query
returns the empty list immediately.  `smartSearch` is a total function, so
neither case can throw. -/
theorem smartSearch_not_ready_blank (st : GlobalState) (cd : CardData) (fi : FuzzyIndex)
    (ni : NumberIndex) (lp : Bool) (q : String) (l : Nat) :
    ((st.cardData = none ∨ st.fuseIndex = none ∨ st.cardsByNumber = none) →
      smartSearch q l st = ([], st)) ∧
    (strTrim q = "" →
      smartSearch q l (GlobalState.mk (some cd) (some fi) (some ni) lp) =
        ([], GlobalState.mk (some cd) (some fi) (some ni) lp)) := by
  constructor
  · intro h
    obtain ⟨a, b, c, d⟩ := st
    cases a <;> cases b <;> cases c <;>
      first
        | rfl
        | (rcases h with h | h | h <;> simp at h)
  · intro h
    simp only [smartSearch]
    rw [if_pos h]

/-- Claim C8, witness: the theorem applied at the unloaded state with query
"x", and at a loaded empty-catalog state with the whitespace query " ". -/
theorem smartSearch_not_ready_blank_witness :
    smartSearch "x" 50 stUnloaded = ([], stUnloaded) ∧
    smartSearch " " 50 (GlobalState.mk (some cdEmpty) (some emptyFuse) (some (buildNumberIndex cdEmpty.cards)) true) =
      ([], GlobalState.mk (some cdEmpty) (some emptyFuse) (some (buildNumberIndex cdEmpty.cards)) true) :=
  ⟨(smartSearch_not_ready_blank stUnloaded cdEmpty emptyFuse (buildNumberIndex cdEmpty.cards) true "x" 50).1 (Or.inl rfl),
   (smartSearch_not_ready_blank stUnloaded cdEmpty emptyFuse (buildNumberIndex cdEmpty.cards) true " " 50).2 (by decide)⟩

/-- Claim C9: a second `loadCardData` call after a completed first call
performs no underlying fetch (the returned flag is `false`) and leaves the
whole state exactly as the first call left it, whatever the first call's
outcome was (success, non-ok response, null body, or thrown fault - a
failed load is not retried because the settled promise stays in
`loadPromise`). -/
theorem loadCardData_second_noop (f1 f2 : List CachedCard → FuzzyIndex)
    (o1 o2 : FetchOutcome) (st : GlobalState) :
    loadCardData f2 o2 (loadCardData f1 o1 st).1 = ((loadCardData f1 o1 st).1, false) := by
  by_cases h1 : st.cardData.isSome
  · simp [loadCardData, h1]
  · by_cases h2 : st.loadPromise
    · simp [loadCardData, h1, h2]
    · cases o1 with
      | notOk => simp [loadCardData, h1, h2]
      | okJson d => cases d <;> simp [loadCardData, h1, h2]
      | fetchErr => simp [loadCardData, h1, h2]

/-- Claim C10: whenever the lower-cased hint occurs in the lower-cased
actual set name, `matchSetName` answers true (its first check); in
particular the empty hint matches every set name, since the empty string is
a substring of everything. -/
theorem matchSetName_substr (hint s : String) :
    (strIncludes (strLower s) (strLower hint) = true → matchSetName hint s = true) ∧
    matchSetName "" s = true := by
  constructor
  · intro h
    unfold matchSetName
    rw [h]
    rfl
  · unfold matchSetName
    have h0 : strIncludes (strLower s) (strLower "") = true := by
      show subIn (strLower "").data (strLower s).data = true
      exact subIn_nil _
    rw [h0]
    rfl

/-- Claim C10, witness: the theorem applied at hint "base" and set name
"Base Set 2". -/
theorem matchSetName_substr_witness :
    strIncludes (strLower "Base Set 2") (strLower "base") = true ∧
    matchSetName "base" "Base Set 2" = true ∧ matchSetName "" "Base Set 2" = true :=
  ⟨by decide, (matchSetName_substr "base" "Base Set 2").1 (by decide),
   (matchSetName_substr "base" "Base Set 2").2⟩

/-- Claim C2: on a loaded state, when the classification is structural
(`card-number` or `set-number`) and the dispatched number-index path yields
no results, `smartSearch` returns the name search of the original raw query
truncated to the limit; when the classification is `name` the result is the
name search of the classified name text (no fallback), and whenever the
structured path yields at least one card its result is returned truncated
with no fallback. -/
theorem smartSearch_fallback_rule (cd : CardData) (fi : FuzzyIndex) (ni : NumberIndex)
    (lp : Bool) (q : String) (l : Nat) :
    ((parseQuery q).type ≠ QType.name →
      (dispatchSearch (parseQuery q) (GlobalState.mk (some cd) (some fi) (some ni) lp)).1 = [] →
      (smartSearch q l (GlobalState.mk (some cd) (some fi) (some ni) lp)).1 =
        (searchByName q (GlobalState.mk (some cd) (some fi) (some ni) lp)).take l) ∧
    ((parseQuery q).type = QType.name →
      (smartSearch q l (GlobalState.mk (some cd) (some fi) (some ni) lp)).1 =
        (searchByName (parseQuery q).nameQuery (GlobalState.mk (some cd) (some fi) (some ni) lp)).take l) ∧
    ((dispatchSearch (parseQuery q) (GlobalState.mk (some cd) (some fi) (some ni) lp)).1 ≠ [] →
      (smartSearch q l (GlobalState.mk (some cd) (some fi) (some ni) lp)).1 =
        ((dispatchSearch (parseQuery q) (GlobalState.mk (some cd) (some fi) (some ni) lp)).1).take l) := by
  refine ⟨?_, ?_, ?_⟩
  · intro ht he
    have hq : strTrim q ≠ "" := trim_ne_of_not_name q ht
    simp only [smartSearch]
    rw [if_neg hq, if_pos ⟨he, ht⟩, parseQuery_original]
    have hfr := dispatchSearch_state (parseQuery q) (GlobalState.mk (some cd) (some fi) (some ni) lp)
    rw [searchByName_congr q _ _ hfr.1 hfr.2.1]
  · intro ht
    by_cases hq : strTrim q = ""
    · simp only [smartSearch]
      rw [if_pos hq, parseQuery_of_trim_empty q hq]
      show ([] : List CachedCard) = (searchByName (strTrim q) _).take l
      rw [hq, searchByName_empty, List.take_nil]
    · simp only [smartSearch]
      rw [if_neg hq, if_neg (fun hc => hc.2 ht), dispatchSearch_name _ ht]
  · intro hne
    by_cases hq : strTrim q = ""
    · refine absurd ?_ hne
      rw [parseQuery_of_trim_empty q hq, dispatchSearch_name _ rfl]
      show searchByName (strTrim q) (GlobalState.mk (some cd) (some fi) (some ni) lp) = []
      rw [hq]
      exact searchByName_empty cd fi (some ni) lp
    · simp only [smartSearch]
      rw [if_neg hq, if_neg (fun hc => hne hc.1)]

/-- Claim C2, witness: the theorem's fallback branch applied at the spec's
fallback-law query "99/5" over a loaded empty catalog (the number path
returns nothing, so the name search of the raw query is returned). -/
theorem smartSearch_fallback_rule_witness :
    (parseQuery "99/5").type ≠ QType.name ∧
    (dispatchSearch (parseQuery "99/5") (GlobalState.mk (some cdEmpty) (some emptyFuse) (some (buildNumberIndex cdEmpty.cards)) true)).1 = [] ∧
    (smartSearch "99/5" 50 (GlobalState.mk (some cdEmpty) (some emptyFuse) (some (buildNumberIndex cdEmpty.cards)) true)).1 =
      (searchByName "99/5" (GlobalState.mk (some cdEmpty) (some emptyFuse) (some (buildNumberIndex cdEmpty.cards)) true)).take 50 :=
  ⟨by decide, by decide,
   (smartSearch_fallback_rule cdEmpty emptyFuse (buildNumberIndex cdEmpty.cards) true "99/5" 50).1
     (by decide) (by decide)⟩

/-- Claim C3: on a loaded state, for a name query with nonempty trimmed
text and at least one exact substring match, the head of the name-search
result is exactly the exact-match set (a permutation of it of the same
length), ordered so that a card whose lower-cased name equals the query
never follows one whose name does not, and prices are descending inside
each of the two groups. -/
theorem searchByName_exact_first (cd : CardData) (fi : FuzzyIndex) (ni : Option NumberIndex)
    (lp : Bool) (q : String)
    (hq : strTrim (strLower q) ≠ "")
    (hm : exactNameMatches cd (strTrim (strLower q)) ≠ []) :
    List.Perm
      ((searchByName q (GlobalState.mk (some cd) (some fi) ni lp)).take
        (exactNameMatches cd (strTrim (strLower q))).length)
      (exactNameMatches cd (strTrim (strLower q))) ∧
    List.Pairwise (exactFirstRel (strTrim (strLower q)))
      ((searchByName q (GlobalState.mk (some cd) (some fi) ni lp)).take
        (exactNameMatches cd (strTrim (strLower q))).length) := by
  have hpos : 0 < (exactNameMatches cd (strTrim (strLower q))).length :=
    List.length_pos.mpr hm
  have hlen := sortedExact_length cd (strTrim (strLower q))
  have hres : (searchByName q (GlobalState.mk (some cd) (some fi) ni lp)).take
      (exactNameMatches cd (strTrim (strLower q))).length =
      sortedExact cd (strTrim (strLower q)) := by
    simp only [searchByName]
    rw [if_neg hq, if_pos hpos]
    by_cases h10 : 10 ≤ (sortedExact cd (strTrim (strLower q))).length
    · rw [if_pos h10, ← hlen, List.take_length]
    · rw [if_neg h10, ← hlen, List.take_left]
  rw [hres]
  refine ⟨sortBy_perm _ _, ?_⟩
  exact (pairwise_sortBy (nameCmp_total _) (nameCmp_trans _) _).imp
    (fun h => nameCmp_imp_rel _ _ _ h)

/-- Claim C3, witness: the theorem applied at the spec's example - cards
"Pikachu" (price 5) and "Pikachu VMAX" (price 50) with query "pikachu" -
together with the concrete result: both cards are returned and "Pikachu"
ranks first despite the lower price. -/
theorem searchByName_exact_first_witness :
    (strTrim (strLower "pikachu") ≠ "") ∧
    (exactNameMatches cdPika (strTrim (strLower "pikachu")) ≠ []) ∧
    (List.Perm
      ((searchByName "pikachu" (GlobalState.mk (some cdPika) (some emptyFuse) (some (buildNumberIndex cdPika.cards)) true)).take
        (exactNameMatches cdPika (strTrim (strLower "pikachu"))).length)
      (exactNameMatches cdPika (strTrim (strLower "pikachu"))) ∧
    List.Pairwise (exactFirstRel (strTrim (strLower "pikachu")))
      ((searchByName "pikachu" (GlobalState.mk (some cdPika) (some emptyFuse) (some (buildNumberIndex cdPika.cards)) true)).take
        (exactNameMatches cdPika (strTrim (strLower "pikachu"))).length)) ∧
    searchByName "pikachu" (GlobalState.mk (some cdPika) (some emptyFuse) (some (buildNumberIndex cdPika.cards)) true) =
      [pikachu, pikachuVmax] :=
  ⟨by decide, by decide,
   searchByName_exact_first cdPika emptyFuse (some (buildNumberIndex cdPika.cards)) true
     "pikachu" (by decide) (by decide),
   by decide⟩

/-- Claim C4: on a loaded state with nonempty trimmed name query, when the
exact-match count is at least ten the name search returns exactly the
sorted exact matches (no fuzzy results); when it is between one and nine it
returns the sorted exact matches followed by the fuzzy results of the
original text with internal limit 100, kept in fuzzy order and filtered to
identifiers not already among the exact matches, so no appended card
repeats an exact-match identifier. -/
theorem searchByName_fuzzy_policy (cd : CardData) (fi : FuzzyIndex) (ni : Option NumberIndex)
    (lp : Bool) (q : String) (hq : strTrim (strLower q) ≠ "") :
    (10 ≤ (exactNameMatches cd (strTrim (strLower q))).length →
      searchByName q (GlobalState.mk (some cd) (some fi) ni lp) =
        sortedExact cd (strTrim (strLower q))) ∧
    (1 ≤ (exactNameMatches cd (strTrim (strLower q))).length →
      (exactNameMatches cd (strTrim (strLower q))).length ≤ 9 →
      searchByName q (GlobalState.mk (some cd) (some fi) ni lp) =
        sortedExact cd (strTrim (strLower q)) ++
          (fi q 100).filter (fun c =>
            !(hasId ((exactNameMatches cd (strTrim (strLower q))).map (fun x => x.id)) c.id)) ∧
      ∀ c ∈ (fi q 100).filter (fun c =>
          !(hasId ((exactNameMatches cd (strTrim (strLower q))).map (fun x => x.id)) c.id)),
        ¬ c.id ∈ (exactNameMatches cd (strTrim (strLower q))).map (fun x => x.id)) := by
  constructor
  · intro h10
    simp only [searchByName]
    rw [if_neg hq, if_pos (lt_of_lt_of_le (by decide) h10),
      if_pos (by rw [sortedExact_length]; exact h10)]
  · intro h1 h9
    have h10 : ¬ 10 ≤ (sortedExact cd (strTrim (strLower q))).length := by
      rw [sortedExact_length]
      omega
    constructor
    · simp only [searchByName]
      rw [if_neg hq,
        if_pos (show 0 < (exactNameMatches cd (strTrim (strLower q))).length from h1),
        if_neg h10]
      congr 1
      apply List.filter_congr
      intro x _
      have hperm : List.Perm (sortedExact cd (strTrim (strLower q)))
          (exactNameMatches cd (strTrim (strLower q))) := sortBy_perm _ _
      rw [hasId_congr_perm (hperm.map (fun x => x.id)) x.id]
    · intro c hc hmem
      rw [List.mem_filter] at hc
      have h2 := hc.2
      have hfalse : hasId ((exactNameMatches cd (strTrim (strLower q))).map (fun x => x.id)) c.id = false := by
        cases hb : hasId ((exactNameMatches cd (strTrim (strLower q))).map (fun x => x.id)) c.id
        · rfl
        · rw [hb] at h2
          exact absurd h2 (by decide)
      exact absurd (hasId_iff.mpr hmem) (by rw [hfalse]; exact Bool.false_ne_true)

/-- Claim C4, witness: the sufficiency branch applied at a catalog of ten
cards named "Mew" with query "mew" (exact matches alone are returned), and
the appended-fuzzy branch applied at the two-card Pikachu catalog with
query "pikachu" (two exact matches, so fuzzy results are appended after
de-duplication). -/
theorem searchByName_fuzzy_policy_witness :
    (10 ≤ (exactNameMatches cdMew (strTrim (strLower "mew"))).length ∧
      searchByName "mew" (GlobalState.mk (some cdMew) (some emptyFuse) (some (buildNumberIndex cdMew.cards)) true) =
        sortedExact cdMew (strTrim (strLower "mew"))) ∧
    (1 ≤ (exactNameMatches cdPika (strTrim (strLower "pikachu"))).length ∧
      (exactNameMatches cdPika (strTrim (strLower "pikachu"))).length ≤ 9 ∧
      (searchByName "pikachu" (GlobalState.mk (some cdPika) (some emptyFuse) (some (buildNumberIndex cdPika.cards)) true) =
        sortedExact cdPika (strTrim (strLower "pikachu")) ++
          (emptyFuse "pikachu" 100).filter (fun c =>
            !(hasId ((exactNameMatches cdPika (strTrim (strLower "pikachu"))).map (fun x => x.id)) c.id)) ∧
      ∀ c ∈ (emptyFuse "pikachu" 100).filter (fun c =>
          !(hasId ((exactNameMatches cdPika (strTrim (strLower "pikachu"))).map (fun x => x.id)) c.id)),
        ¬ c.id ∈ (exactNameMatches cdPika (strTrim (strLower "pikachu"))).map (fun x => x.id))) :=
  ⟨⟨by decide,
    (searchByName_fuzzy_policy cdMew emptyFuse (some (buildNumberIndex cdMew.cards)) true "mew"
      (by decide)).1 (by decide)⟩,
   by decide, by decide,
   (searchByName_fuzzy_policy cdPika emptyFuse (some (buildNumberIndex cdPika.cards)) true "pikachu"
      (by decide)).2 (by decide) (by decide)⟩

/-- Claim C6, counterexample: for query "A#1234 #5" (which matches neither
the slash form nor an accepted trailing-number form, and contains the
hash token "#5"), the returned set hint and name query are not the query
with the matched "#5" token removed ("A#1234", nor its lower-cased form
"a#1234"): the code instead removes the first occurrence of `#` followed by
up to three digits from the lower-cased text, yielding "a4 #5". -/
theorem parseQuery_hash_form_cx :
    (parseQuery "A#1234 #5").type = QType.setNumber ∧
    (parseQuery "A#1234 #5").cardNumber = some "5" ∧
    (parseQuery "A#1234 #5").nameQuery = "a4 #5" ∧
    (parseQuery "A#1234 #5").nameQuery ≠ "A#1234" ∧
    (parseQuery "A#1234 #5").nameQuery ≠ "a#1234" ∧
    (parseQuery "A#1234 #5").setHint = some "a4 #5" := by
  refine ⟨by decide, by decide, by decide, by decide, by decide, by decide⟩

/-- Claim C6, amended: for every query matching neither the slash form nor
an accepted trailing-number form whose trimmed lower-cased text contains
`#` immediately followed by one to three digits ending at whitespace or end
of string, `parseQuery` returns the set-number variant whose card number is
the digits of the leftmost such token with leading zeros stripped ("0" if
empty), and whose set hint and name query are both the trimmed lower-cased
query with its first occurrence of `#` followed by up to three digits
removed, then trimmed (the set hint is absent when that remainder is
empty). -/
theorem parseQuery_hash_form (q : String) (ds : List Char)
    (h1 : slashParse (strLower (strTrim q)).data = none)
    (h2 : trailParse (strLower (strTrim q)) q = none)
    (h3 : hashScan (strLower (strTrim q)).data = some ds) :
    parseQuery q = { type := QType.setNumber, cardNumber := some (stripZeros (String.mk ds)), setSize := none, setHint := if strTrim (String.mk (stripHashTok (strLower (strTrim q)).data)) = "" then none else some (strTrim (String.mk (stripHashTok (strLower (strTrim q)).data))), nameQuery := strTrim (String.mk (stripHashTok (strLower (strTrim q)).data)), originalQuery := q } := by
  unfold parseQuery
  rw [h1, h2, h3]

/-- Claim C6, witness: the amended theorem applied at "charizard #4": the
card number is 4 and both the set hint and the name query are
"charizard". -/
theorem parseQuery_hash_form_witness :
    slashParse (strLower (strTrim "charizard #4")).data = none ∧
    trailParse (strLower (strTrim "charizard #4")) "charizard #4" = none ∧
    hashScan (strLower (strTrim "charizard #4")).data = some ['4'] ∧
    parseQuery "charizard #4" = { type := QType.setNumber, cardNumber := some (stripZeros (String.mk ['4'])), setSize := none, setHint := if strTrim (String.mk (stripHashTok (strLower (strTrim "charizard #4")).data)) = "" then none else some (strTrim (String.mk (stripHashTok (strLower (strTrim "charizard #4")).data))), nameQuery := strTrim (String.mk (stripHashTok (strLower (strTrim "charizard #4")).data)), originalQuery := "charizard #4" } ∧
    (parseQuery "charizard #4").setHint = some "charizard" ∧
    (parseQuery "charizard #4").cardNumber = some "4" :=
  ⟨by decide, by decide, by decide,
   parseQuery_hash_form "charizard #4" ['4'] (by decide) (by decide) (by decide),
   by decide, by decide⟩

